import Mathlib

/-!
Shallow embedding of the state-reconciliation core of the Todo DApp client
(`src/src/App.tsx` plus `src/src/Client.ts`).

The read path (`loadTasksAndEvents`) fetches raw log records, normalizes them
into an event feed sorted by block number descending, collects the distinct
task ids appearing in `TaskCreated` records, point-reads each id (per-id
failures are swallowed and yield `null`, modelled by `Option`), and sorts the
surviving tasks ascending by id.

The write path (`createTask`, `updateTask`, `completeTask`) guards on a
non-empty trimmed description and a connected wallet client, then runs
simulate → submit → await-confirmation against the ledger; any throw is caught
and recorded in the `error` field only, leaving tasks and events untouched; on
success a fresh read-path pass replaces the snapshot.  The ledger's responses
are supplied by a `LedgerOracle`, and the calls actually issued are collected
in a trace so that "submit was never called" is a statement about the model.

Block numbers, task ids and prepared requests are modelled as `Nat`;
JavaScript's stable `Array.prototype.sort` is modelled by the stable
`List.insertionSort`; JavaScript `String.prototype.trim` is modelled by
`trimString`.
-/

namespace Todo

/-- The three contract event kinds (`TaskCreated`, `TaskUpdated`,
`TaskCompleted`) declared in the contract ABI (`App.tsx` lines 8-16). -/
inductive EventType
  | taskCreated
  | taskUpdated
  | taskCompleted
deriving DecidableEq, Repr

/-- The `Task` record returned by the contract's `getTask` point-read
(`App.tsx` lines 18-22). -/
structure Task where
  id : Nat
  description : String
  completed : Bool
deriving DecidableEq, Repr

/-- The normalized `Event` interface (`App.tsx` lines 24-30): `description`
is optional. -/
structure Event where
  type : EventType
  id : Nat
  description : Option String
  blockNumber : Nat
  transactionHash : String
deriving DecidableEq, Repr

/-- A raw log record as returned by `client.getLogs` (`App.tsx` lines
167-196): the decoded args carry `id` always and `description` for
`TaskCreated`/`TaskUpdated` (absent for `TaskCompleted`), plus block number
and transaction hash. -/
structure RawLog where
  eventName : EventType
  id : Nat
  description : Option String
  blockNumber : Nat
  transactionHash : String
deriving DecidableEq, Repr

/-- The per-record normalization step (`App.tsx` lines 199-206).  The
`description` field of the produced event is left absent: the line
`description: log.args.description as string` is commented out in the
source (line 203). -/
def processLog (log : RawLog) : Event :=
  { type := log.eventName
    id := log.id
    description := none
    blockNumber := log.blockNumber
    transactionHash := log.transactionHash }

/-- The normalization step as §4.2 of the design document words it: extract
`taskId` and, when the raw shape carries it, `description`; carry through
`blockHeight` and `transactionRef` unchanged.  Kept separate from
`processLog` (the code) so the two can be compared. -/
def processLogSpec (log : RawLog) : Event :=
  { type := log.eventName
    id := log.id
    description := log.description
    blockNumber := log.blockNumber
    transactionHash := log.transactionHash }

/-- Order used by `processedEvents.sort((a, b) => Number(b.blockNumber -
a.blockNumber))` (`App.tsx` line 208): `a` sorts no later than `b` exactly
when `b.blockNumber ≤ a.blockNumber` (descending). -/
def eventDescOrder (a b : Event) : Prop := b.blockNumber ≤ a.blockNumber

instance : DecidableRel eventDescOrder := fun a b => Nat.decLe _ _

instance : IsTotal Event eventDescOrder :=
  ⟨fun a b => Nat.le_total b.blockNumber a.blockNumber⟩

instance : IsTrans Event eventDescOrder :=
  ⟨fun _ _ _ h1 h2 => Nat.le_trans h2 h1⟩

/-- Order used by `validTasks.sort((a, b) => Number(a.id - b.id))`
(`App.tsx` line 235): ascending by id. -/
def taskAscOrder (a b : Task) : Prop := a.id ≤ b.id

instance : DecidableRel taskAscOrder := fun a b => Nat.decLe _ _

/-- JavaScript's `Array.prototype.sort` is stable; a stable sort under the
descending-by-height comparator is modelled by insertion sort. -/
def sortEventsDesc (l : List Event) : List Event := l.insertionSort eventDescOrder

/-- Stable ascending-by-id sort of the surviving tasks. -/
def sortTasksAsc (l : List Task) : List Task := l.insertionSort taskAscOrder

/-- One step of building the `taskIds` set (`App.tsx` lines 211-216): a
JavaScript `Set<bigint>` keeps first-insertion order and ignores re-adds,
and only `TaskCreated` records contribute. -/
def addId (acc : List Nat) (l : RawLog) : List Nat :=
  if l.eventName = EventType.taskCreated then
    if l.id ∈ acc then acc else acc ++ [l.id]
  else acc

/-- `Array.from(taskIds)` where `taskIds` is the set of ids of `TaskCreated`
records, in first-occurrence order (`App.tsx` lines 211-219). -/
def collectCreatedIds (logs : List RawLog) : List Nat := logs.foldl addId []

/-- The body of `loadTasksAndEvents` (`App.tsx` lines 162-243) after a
successful log fetch.  `readTask` models the per-id
`client.readContract(getTask, id)` wrapped in its own `try { } catch
{ return null }` (lines 219-231): a failing read yields `none` and is
filtered out (line 234), never escalated.  Events are the normalized logs
sorted descending by block number; tasks are the surviving point-reads
sorted ascending by id. -/
def loadTasksAndEvents (logs : List RawLog) (readTask : Nat → Option Task) :
    List Task × List Event :=
  let processedEvents := logs.map processLog
  let events := sortEventsDesc processedEvents
  let taskIds := collectCreatedIds logs
  let validTasks := taskIds.filterMap readTask
  (sortTasksAsc validTasks, events)

/-- The whole read path including the outer `try/catch`: a failed log fetch
is the only way the read path as a whole fails (`App.tsx` lines 163-242);
per-id point-read failures are already absorbed inside `readTask`. -/
def runReadPath (fetched : Except String (List RawLog))
    (readTask : Nat → Option Task) : Except String (List Task × List Event) :=
  match fetched with
  | .error e => .error e
  | .ok logs => .ok (loadTasksAndEvents logs readTask)

/-- The event feed rendered to the user shows `events.slice(0, 20)`
(`App.tsx` line 513). -/
def renderedEvents (events : List Event) : List Event := events.take 20

/-- The whitespace characters removed by JavaScript `String.prototype.trim`
(restricted to the ASCII whitespace the inputs can contain). -/
def isWs (c : Char) : Bool := c = ' ' || c = '\t' || c = '\n' || c = '\r'

/-- Remove leading and trailing whitespace from a character list. -/
def trimChars (l : List Char) : List Char :=
  ((l.dropWhile isWs).reverse.dropWhile isWs).reverse

/-- Model of JavaScript `String.prototype.trim` as used in the guards and
arguments of `createTask`/`updateTask` (`App.tsx` lines 247, 257, 277, 287). -/
def trimString (s : String) : String := String.mk (trimChars s.data)

/-- `true` iff the string has neither a leading nor a trailing whitespace
character. -/
def noOuterWs (s : String) : Bool :=
  (match s.data.head? with
   | some c => !isWs c
   | none => true) &&
  (match s.data.getLast? with
   | some c => !isWs c
   | none => true)

/-- The stage of the write lifecycle at which a failure occurred:
`simulating` = `client.simulateContract` threw, `submitted` =
`walletClient.writeContract` threw, `confirming` =
`client.waitForTransactionReceipt` threw. -/
inductive Stage
  | simulating
  | submitted
  | confirming
deriving DecidableEq, Repr

/-- The observable outcome of one write intent: rejected by the entry guard
(the early `return`), failed inside the `try` block at a given stage with
the thrown message, or fully succeeded (receipt obtained and the read path
re-run). -/
inductive WriteOutcome
  | rejected
  | failed (stage : Stage) (reason : String)
  | succeeded
deriving DecidableEq, Repr

/-- One ledger call issued by a write operation, recorded for the call
trace.  `simulateCall` carries the contract function name and its `args`
(an optional task id and an optional description, matching the three
functions' signatures); `submitCall` carries the prepared request returned
by simulate; `awaitConfirmationCall` carries the transaction hash returned
by submit. -/
inductive LedgerCall
  | simulateCall (functionName : String) (argId : Option Nat)
      (argDescription : Option String)
  | submitCall (request : Nat)
  | awaitConfirmationCall (txHash : String)
deriving DecidableEq, Repr

/-- The ledger's responses for one write attempt: what
`client.simulateContract` returns or throws (the prepared `request`,
modelled as a number), what `walletClient.writeContract` returns or throws
(the transaction hash), and what `client.waitForTransactionReceipt`
returns or throws. -/
structure LedgerOracle where
  simulateResult : Except String Nat
  submitResult : Except String String
  awaitResult : Except String Unit
deriving Repr

/-- The slice of component state the write and read paths touch: the
`tasks`, `events`, `error`, `newTaskDescription` and `editingTask` React
state cells (`App.tsx` lines 41-46).  The `loading` flag is omitted: it is
set and then unconditionally reset by every operation. -/
structure AppState where
  tasks : List Task
  events : List Event
  error : String
  newTaskDescription : String
  editingTask : Option (Nat × String)
deriving DecidableEq, Repr

/-- `createTask` (`App.tsx` lines 246-273).  Guard: empty trimmed
description or missing wallet client aborts with no call and no state
change.  Otherwise simulate with the trimmed description; on success
submit, then await the receipt; any failure is caught, setting only
`error`; on full success the input is cleared and a read-path pass
(fed by `reloadLogs`/`reloadReader`) replaces tasks and events. -/
def createTask (st : AppState) (walletConnected : Bool) (oracle : LedgerOracle)
    (reloadLogs : List RawLog) (reloadReader : Nat → Option Task) :
    AppState × List LedgerCall × WriteOutcome :=
  if trimString st.newTaskDescription = "" ∨ walletConnected = false then
    (st, [], .rejected)
  else
    let desc := trimString st.newTaskDescription
    let simCall := LedgerCall.simulateCall "createTask" none (some desc)
    match oracle.simulateResult with
    | .error reason =>
        ({ st with error := "Failed to create task: " ++ reason },
         [simCall], .failed .simulating reason)
    | .ok request =>
        match oracle.submitResult with
        | .error reason =>
            ({ st with error := "Failed to create task: " ++ reason },
             [simCall, .submitCall request], .failed .submitted reason)
        | .ok hash =>
            match oracle.awaitResult with
            | .error reason =>
                ({ st with error := "Failed to create task: " ++ reason },
                 [simCall, .submitCall request, .awaitConfirmationCall hash],
                 .failed .confirming reason)
            | .ok _ =>
                let reloaded := loadTasksAndEvents reloadLogs reloadReader
                ({ st with
                    tasks := reloaded.1
                    events := reloaded.2
                    error := ""
                    newTaskDescription := "" },
                 [simCall, .submitCall request, .awaitConfirmationCall hash],
                 .succeeded)

/-- `updateTask` (`App.tsx` lines 276-303).  Guard: no task being edited,
empty trimmed description, or missing wallet client aborts silently.
Otherwise the lifecycle mirrors `createTask`, targeting `editingTask.id`
with the trimmed edited description; on full success `editingTask` is
cleared and the snapshot reloaded. -/
def updateTask (st : AppState) (walletConnected : Bool) (oracle : LedgerOracle)
    (reloadLogs : List RawLog) (reloadReader : Nat → Option Task) :
    AppState × List LedgerCall × WriteOutcome :=
  match st.editingTask with
  | none => (st, [], .rejected)
  | some (tid, d) =>
    if trimString d = "" ∨ walletConnected = false then
      (st, [], .rejected)
    else
      let simCall := LedgerCall.simulateCall "updateTask" (some tid)
        (some (trimString d))
      match oracle.simulateResult with
      | .error reason =>
          ({ st with error := "Failed to update task: " ++ reason },
           [simCall], .failed .simulating reason)
      | .ok request =>
          match oracle.submitResult with
          | .error reason =>
              ({ st with error := "Failed to update task: " ++ reason },
               [simCall, .submitCall request], .failed .submitted reason)
          | .ok hash =>
              match oracle.awaitResult with
              | .error reason =>
                  ({ st with error := "Failed to update task: " ++ reason },
                   [simCall, .submitCall request, .awaitConfirmationCall hash],
                   .failed .confirming reason)
              | .ok _ =>
                  let reloaded := loadTasksAndEvents reloadLogs reloadReader
                  ({ st with
                      tasks := reloaded.1
                      events := reloaded.2
                      error := ""
                      editingTask := none },
                   [simCall, .submitCall request, .awaitConfirmationCall hash],
                   .succeeded)

/-- `completeTask` (`App.tsx` lines 306-332).  Guard: only the wallet-client
check (the id comes from the rendered task, no text input).  Lifecycle as
in `createTask`, targeting `id` with no description argument. -/
def completeTask (st : AppState) (walletConnected : Bool)
    (oracle : LedgerOracle) (id : Nat) (reloadLogs : List RawLog)
    (reloadReader : Nat → Option Task) :
    AppState × List LedgerCall × WriteOutcome :=
  if walletConnected = false then
    (st, [], .rejected)
  else
    let simCall := LedgerCall.simulateCall "completeTask" (some id) none
    match oracle.simulateResult with
    | .error reason =>
        ({ st with error := "Failed to complete task: " ++ reason },
         [simCall], .failed .simulating reason)
    | .ok request =>
        match oracle.submitResult with
        | .error reason =>
            ({ st with error := "Failed to complete task: " ++ reason },
             [simCall, .submitCall request], .failed .submitted reason)
        | .ok hash =>
            match oracle.awaitResult with
            | .error reason =>
                ({ st with error := "Failed to complete task: " ++ reason },
                 [simCall, .submitCall request, .awaitConfirmationCall hash],
                 .failed .confirming reason)
            | .ok _ =>
                let reloaded := loadTasksAndEvents reloadLogs reloadReader
                ({ st with
                    tasks := reloaded.1
                    events := reloaded.2
                    error := "" },
                 [simCall, .submitCall request, .awaitConfirmationCall hash],
                 .succeeded)

/-! ### Lemmas about the created-id set -/

theorem mem_addId (acc : List Nat) (l : RawLog) (x : Nat) :
    x ∈ addId acc l ↔
      x ∈ acc ∨ (l.eventName = EventType.taskCreated ∧ l.id = x) := by
  unfold addId
  by_cases hc : l.eventName = EventType.taskCreated
  · by_cases hm : l.id ∈ acc
    · simp only [if_pos hc, if_pos hm, hc, true_and]
      exact ⟨Or.inl, fun h => h.elim id fun h => h ▸ hm⟩
    · simp [if_pos hc, if_neg hm, hc, eq_comm]
  · simp [if_neg hc, hc]

theorem mem_foldl_addId (logs : List RawLog) (acc : List Nat) (x : Nat) :
    x ∈ logs.foldl addId acc ↔
      x ∈ acc ∨ ∃ l ∈ logs, l.eventName = EventType.taskCreated ∧ l.id = x := by
  induction logs generalizing acc with
  | nil => simp
  | cons l rest ih =>
    rw [List.foldl_cons, ih, mem_addId]
    simp only [List.mem_cons, exists_eq_or_imp]
    tauto

theorem mem_collectCreatedIds (logs : List RawLog) (x : Nat) :
    x ∈ collectCreatedIds logs ↔
      ∃ l ∈ logs, l.eventName = EventType.taskCreated ∧ l.id = x := by
  rw [collectCreatedIds, mem_foldl_addId]
  simp

theorem nodup_addId (acc : List Nat) (l : RawLog) (h : acc.Nodup) :
    (addId acc l).Nodup := by
  unfold addId
  by_cases hc : l.eventName = EventType.taskCreated
  · by_cases hm : l.id ∈ acc
    · simpa [hc, hm] using h
    · simp [hc, hm, List.nodup_append, h]
  · simpa [hc] using h

theorem nodup_foldl_addId (logs : List RawLog) (acc : List Nat)
    (h : acc.Nodup) : (logs.foldl addId acc).Nodup := by
  induction logs generalizing acc with
  | nil => simpa
  | cons l rest ih => exact ih _ (nodup_addId _ _ h)

theorem nodup_collectCreatedIds (logs : List RawLog) :
    (collectCreatedIds logs).Nodup :=
  nodup_foldl_addId logs [] List.nodup_nil

/-! ### Lemmas about the best-effort point-read pass -/

theorem map_id_filterMap_sublist (reader : Nat → Option Task)
    (hid : ∀ i t, reader i = some t → t.id = i) :
    ∀ ids : List Nat, List.Sublist ((ids.filterMap reader).map Task.id) ids := by
  intro ids
  induction ids with
  | nil => simp
  | cons i rest ih =>
    cases hread : reader i with
    | none =>
      rw [List.filterMap_cons_none hread]
      exact ih.cons i
    | some t =>
      rw [List.filterMap_cons_some hread, List.map_cons, hid i t hread]
      exact ih.cons₂ i

theorem length_filterMap_of_all_some (reader : Nat → Option Task) :
    ∀ ids : List Nat, (∀ i ∈ ids, (reader i).isSome) →
      (ids.filterMap reader).length = ids.length := by
  intro ids
  induction ids with
  | nil => simp
  | cons i rest ih =>
    intro h
    rcases Option.isSome_iff_exists.mp (h i (List.mem_cons_self i rest)) with
      ⟨t, ht⟩
    rw [List.filterMap_cons_some ht, List.length_cons, List.length_cons,
      ih fun j hj => h j (List.mem_cons_of_mem _ hj)]

theorem length_filterMap_of_one_none (reader : Nat → Option Task) (b : Nat) :
    ∀ ids : List Nat, ids.Nodup → b ∈ ids → reader b = none →
      (∀ i ∈ ids, i ≠ b → (reader i).isSome) →
      (ids.filterMap reader).length + 1 = ids.length := by
  intro ids
  induction ids with
  | nil => intro _ hb; simp at hb
  | cons i rest ih =>
    intro hnd hb hrb hothers
    rcases List.mem_cons.mp hb with hib | hbrest
    · subst hib
      have hall : ∀ j ∈ rest, (reader j).isSome := fun j hj =>
        hothers j (List.mem_cons_of_mem _ hj)
          fun hji => (List.nodup_cons.mp hnd).1 (hji ▸ hj)
      rw [List.filterMap_cons_none hrb,
        length_filterMap_of_all_some reader rest hall, List.length_cons]
    · have hib : i ≠ b := fun h => (List.nodup_cons.mp hnd).1 (h ▸ hbrest)
      rcases Option.isSome_iff_exists.mp
        (hothers i (List.mem_cons_self i rest) hib) with ⟨t, ht⟩
      have hrec := ih (List.nodup_cons.mp hnd).2 hbrest hrb
        fun j hj hjb => hothers j (List.mem_cons_of_mem _ hj) hjb
      rw [List.filterMap_cons_some ht]
      simp only [List.length_cons]
      omega

/-! ### Stability of the descending sort -/

theorem filter_orderedInsert_height (e : Event) (l : List Event) (h : Nat) :
    (List.orderedInsert eventDescOrder e l).filter
        (fun x => x.blockNumber == h) =
      if e.blockNumber == h then
        e :: l.filter (fun x => x.blockNumber == h)
      else l.filter (fun x => x.blockNumber == h) := by
  induction l with
  | nil => by_cases heh : e.blockNumber = h <;> simp [List.orderedInsert, heh]
  | cons f rest ih =>
    by_cases hef : eventDescOrder e f
    · rw [List.orderedInsert, if_pos hef]
      by_cases heh : e.blockNumber = h <;> simp [List.filter_cons, heh]
    · rw [List.orderedInsert, if_neg hef]
      have hfe : e.blockNumber < f.blockNumber :=
        Nat.not_le.mp fun hle => hef hle
      by_cases heh : e.blockNumber = h
      · have hfh : f.blockNumber ≠ h := by omega
        simp [List.filter_cons, ih, heh, hfh]
      · simp [List.filter_cons, ih, heh]

theorem filter_sortEventsDesc (l : List Event) (h : Nat) :
    (sortEventsDesc l).filter (fun x => x.blockNumber == h) =
      l.filter (fun x => x.blockNumber == h) := by
  induction l with
  | nil => rfl
  | cons e rest ih =>
    simp only [sortEventsDesc] at ih ⊢
    rw [List.insertionSort, filter_orderedInsert_height]
    by_cases heh : e.blockNumber = h <;> simp [List.filter_cons, heh, ih]

/-! ### Lemmas about trimming -/

theorem isWs_of_head_dropWhile :
    ∀ (l : List Char) (c : Char),
      (l.dropWhile isWs).head? = some c → isWs c = false := by
  intro l
  induction l with
  | nil => intro c hc; simp [List.dropWhile] at hc
  | cons x xs ih =>
    intro c hc
    rw [List.dropWhile_cons] at hc
    by_cases hx : isWs x
    · rw [if_pos hx] at hc
      exact ih c hc
    · rw [if_neg hx] at hc
      simp only [List.head?_cons, Option.some.injEq] at hc
      subst hc
      simpa using hx

theorem getLast?_dropWhile (p : Char → Bool) :
    ∀ l : List Char, l.dropWhile p ≠ [] →
      (l.dropWhile p).getLast? = l.getLast? := by
  intro l
  induction l with
  | nil => intro h; simp [List.dropWhile] at h
  | cons x xs ih =>
    intro h
    rw [List.dropWhile_cons] at h ⊢
    by_cases hx : p x
    · rw [if_pos hx] at h ⊢
      rw [ih h]
      have hxs : xs ≠ [] := by
        intro he
        exact h (by simp [he, List.dropWhile])
      cases xs with
      | nil => exact absurd rfl hxs
      | cons y ys => rw [List.getLast?_cons_cons]
    · rw [if_neg hx]

theorem isWs_head_trimChars (l : List Char) (c : Char)
    (hc : (trimChars l).head? = some c) : isWs c = false := by
  rw [trimChars, List.head?_reverse] at hc
  have hne : (l.dropWhile isWs).reverse.dropWhile isWs ≠ [] := by
    intro he
    rw [he] at hc
    simp at hc
  rw [getLast?_dropWhile isWs _ hne, List.getLast?_reverse] at hc
  exact isWs_of_head_dropWhile l c hc

theorem isWs_getLast_trimChars (l : List Char) (c : Char)
    (hc : (trimChars l).getLast? = some c) : isWs c = false := by
  rw [trimChars, List.getLast?_reverse] at hc
  exact isWs_of_head_dropWhile _ c hc

theorem noOuterWs_trimString (s : String) : noOuterWs (trimString s) = true := by
  have hd : (trimString s).data = trimChars s.data := rfl
  rw [noOuterWs, hd]
  cases hh : (trimChars s.data).head? with
  | none =>
    cases hl : (trimChars s.data).getLast? with
    | none => simp
    | some c => simp [isWs_getLast_trimChars s.data c hl]
  | some c =>
    cases hl : (trimChars s.data).getLast? with
    | none => simp [isWs_head_trimChars s.data c hh]
    | some c2 =>
      simp [isWs_head_trimChars s.data c hh, isWs_getLast_trimChars s.data c2 hl]

theorem trimString_eq_empty (s : String) (h : s.data.all isWs = true) :
    trimString s = "" := by
  have h1 : s.data.dropWhile isWs = [] :=
    List.dropWhile_eq_nil_iff.mpr (by simpa [List.all_eq_true] using h)
  rw [trimString, trimChars, h1]
  rfl

/-! ### Sample inputs used by the witnesses -/

/-- A small concrete log sequence: two created ids (1 and 2), an update and
a completion. -/
def sampleLogs : List RawLog :=
  [{ eventName := .taskCreated, id := 1, description := some "a",
     blockNumber := 10, transactionHash := "0x1" },
   { eventName := .taskUpdated, id := 1, description := some "b",
     blockNumber := 12, transactionHash := "0x2" },
   { eventName := .taskCreated, id := 2, description := some "c",
     blockNumber := 13, transactionHash := "0x3" },
   { eventName := .taskCompleted, id := 2, description := none,
     blockNumber := 14, transactionHash := "0x4" }]

/-- A point-read that succeeds for every id. -/
def allReader : Nat → Option Task := fun i =>
  some { id := i, description := "task", completed := false }

/-- A point-read that fails exactly for id 2. -/
def failTwoReader : Nat → Option Task := fun i =>
  if i = 2 then none
  else some { id := i, description := "task", completed := false }

/-! ### The claims -/

/-- C1: assuming every per-id point-read succeeds (and, per the ledger
interface, returns the record for the requested id), the ids of the
reconstructed task set are exactly the distinct ids appearing in a
`TaskCreated` record — each at most once — independent of the order or
count of `TaskUpdated`/`TaskCompleted` records. -/
theorem C1_reconstructed_ids (logs : List RawLog) (reader : Nat → Option Task)
    (hsucc : ∀ i ∈ collectCreatedIds logs, (reader i).isSome)
    (hid : ∀ i t, reader i = some t → t.id = i) :
    ((loadTasksAndEvents logs reader).1.map Task.id).Nodup ∧
      ∀ x : Nat, x ∈ (loadTasksAndEvents logs reader).1.map Task.id ↔
        ∃ l ∈ logs, l.eventName = EventType.taskCreated ∧ l.id = x := by
  have htasks : (loadTasksAndEvents logs reader).1 =
      sortTasksAsc ((collectCreatedIds logs).filterMap reader) := rfl
  have hperm : List.Perm
      (sortTasksAsc ((collectCreatedIds logs).filterMap reader))
      ((collectCreatedIds logs).filterMap reader) :=
    List.perm_insertionSort _ _
  have hpm := hperm.map Task.id
  have hsub := map_id_filterMap_sublist reader hid (collectCreatedIds logs)
  constructor
  · rw [htasks]
    exact hpm.nodup_iff.mpr
      (List.Nodup.sublist hsub (nodup_collectCreatedIds logs))
  · intro x
    rw [htasks, ← mem_collectCreatedIds]
    constructor
    · intro hx
      rcases List.mem_map.mp (hpm.mem_iff.mp hx) with ⟨t, htmem, hidt⟩
      rcases List.mem_filterMap.mp htmem with ⟨i, hi, hread⟩
      rw [← hidt, hid i t hread]
      exact hi
    · intro hx
      rcases Option.isSome_iff_exists.mp (hsucc x hx) with ⟨t, ht⟩
      exact hpm.mem_iff.mpr (List.mem_map.mpr
        ⟨t, List.mem_filterMap.mpr ⟨x, hx, ht⟩, hid x t ht⟩)

/-- Witness for C1 at `sampleLogs` with an always-succeeding point-read. -/
theorem C1_witness :
    ((loadTasksAndEvents sampleLogs allReader).1.map Task.id).Nodup ∧
      (2 ∈ (loadTasksAndEvents sampleLogs allReader).1.map Task.id ↔
        ∃ l ∈ sampleLogs, l.eventName = EventType.taskCreated ∧ l.id = 2) := by
  obtain ⟨h1, h2⟩ := C1_reconstructed_ids sampleLogs allReader (by decide)
    (fun i t h => by injection h with h2; exact h2 ▸ rfl)
  exact ⟨h1, h2 2⟩

/-- C2: if the point-read fails for exactly one created id, the read path
still succeeds as a whole (`.ok`), the failing id is silently omitted, and
the reconstructed set has exactly N−1 tasks for N distinct created ids. -/
theorem C2_single_failure (logs : List RawLog) (reader : Nat → Option Task)
    (b : Nat) (hb : b ∈ collectCreatedIds logs) (hfail : reader b = none)
    (hid : ∀ i t, reader i = some t → t.id = i)
    (hothers : ∀ i ∈ collectCreatedIds logs, i ≠ b → (reader i).isSome) :
    runReadPath (.ok logs) reader = .ok (loadTasksAndEvents logs reader) ∧
      (loadTasksAndEvents logs reader).1.length + 1 =
        (collectCreatedIds logs).length ∧
      ∀ t ∈ (loadTasksAndEvents logs reader).1, t.id ≠ b := by
  have hperm : List.Perm
      (sortTasksAsc ((collectCreatedIds logs).filterMap reader))
      ((collectCreatedIds logs).filterMap reader) :=
    List.perm_insertionSort _ _
  refine ⟨rfl, ?_, ?_⟩
  · have h0 : (loadTasksAndEvents logs reader).1.length =
        ((collectCreatedIds logs).filterMap reader).length := hperm.length_eq
    rw [h0]
    exact length_filterMap_of_one_none reader b (collectCreatedIds logs)
      (nodup_collectCreatedIds logs) hb hfail hothers
  · intro t ht hteq
    have htm : t ∈ (collectCreatedIds logs).filterMap reader :=
      hperm.mem_iff.mp ht
    rcases List.mem_filterMap.mp htm with ⟨i, hi, hread⟩
    have hib : i = b := by rw [← hid i t hread]; exact hteq
    rw [hib, hfail] at hread
    exact Option.noConfusion hread

/-- Witness for C2 at `sampleLogs` with the point-read failing only for
id 2 (so N = 2 created ids and 1 surviving task). -/
theorem C2_witness :
    runReadPath (.ok sampleLogs) failTwoReader =
        .ok (loadTasksAndEvents sampleLogs failTwoReader) ∧
      (loadTasksAndEvents sampleLogs failTwoReader).1.length + 1 =
        (collectCreatedIds sampleLogs).length ∧
      ∀ t ∈ (loadTasksAndEvents sampleLogs failTwoReader).1, t.id ≠ 2 := by
  refine C2_single_failure sampleLogs failTwoReader 2 (by decide) (by decide)
    (fun i t h => ?_) (by decide)
  simp only [failTwoReader] at h
  split at h
  · exact Option.noConfusion h
  · injection h with h3
    exact h3 ▸ rfl

/-- C3: the normalized event feed is pairwise non-increasing in block
number across its full length, and input order is preserved among entries
of equal height (filtering the feed at any height gives exactly the
corresponding sublist of the normalized input). -/
theorem C3_feed_sorted_stable (logs : List RawLog)
    (reader : Nat → Option Task) :
    ((loadTasksAndEvents logs reader).2).Sorted eventDescOrder ∧
      ∀ h : Nat, ((loadTasksAndEvents logs reader).2).filter
          (fun e => e.blockNumber == h) =
        (logs.map processLog).filter (fun e => e.blockNumber == h) :=
  ⟨List.sorted_insertionSort eventDescOrder (logs.map processLog),
   fun h => filter_sortEventsDesc (logs.map processLog) h⟩

/-- A raw `TaskCreated` record that carries a description. -/
def rawCreatedSample : RawLog :=
  { eventName := .taskCreated, id := 1, description := some "buy milk",
    blockNumber := 10, transactionHash := "0xabc" }

/-- C4 counterexample: for a raw Created record carrying a description, the
normalized event does not carry it — the mapping in the code drops
`description` (the extraction line is commented out), so the claim as
stated fails. -/
theorem C4_counterexample :
    (processLog rawCreatedSample).description ≠ rawCreatedSample.description ∧
      processLog rawCreatedSample ≠ processLogSpec rawCreatedSample := by
  decide

/-- C4 (amended): the normalized event carries `taskId`, `blockHeight` and
`transactionRef` through unchanged, but its `description` is always absent
(`none`), even for raw Created/Updated records that carry one. -/
theorem C4_amended_normalizer (log : RawLog) :
    (processLog log).type = log.eventName ∧
      (processLog log).id = log.id ∧
      (processLog log).description = none ∧
      (processLog log).blockNumber = log.blockNumber ∧
      (processLog log).transactionHash = log.transactionHash :=
  ⟨rfl, rfl, rfl, rfl, rfl⟩

/-- C8: the read path is deterministic — two passes against an unchanged
ledger (equal log-fetch results, pointwise equal point-read results) yield
an identical `(tasks, events)` pair. -/
theorem C8_read_path_idempotent (logs1 logs2 : List RawLog)
    (r1 r2 : Nat → Option Task) (hl : logs1 = logs2)
    (hr : ∀ i, r1 i = r2 i) :
    loadTasksAndEvents logs1 r1 = loadTasksAndEvents logs2 r2 := by
  subst hl
  rw [funext hr]

/-- Witness for C8 at `sampleLogs` and `allReader`. -/
theorem C8_witness :
    loadTasksAndEvents sampleLogs allReader =
      loadTasksAndEvents sampleLogs allReader :=
  C8_read_path_idempotent sampleLogs sampleLogs allReader allReader rfl
    fun _ => rfl

/-- C9: only the first 20 entries of the height-descending feed are
rendered: the rendered list has length min(20, feed length) and is an
initial segment of the feed. -/
theorem C9_feed_rendering_truncated (logs : List RawLog)
    (reader : Nat → Option Task) :
    (renderedEvents ((loadTasksAndEvents logs reader).2)).length =
        min 20 ((loadTasksAndEvents logs reader).2).length ∧
      renderedEvents ((loadTasksAndEvents logs reader).2) ++
          ((loadTasksAndEvents logs reader).2).drop 20 =
        (loadTasksAndEvents logs reader).2 :=
  ⟨List.length_take 20 _, List.take_append_drop 20 _⟩

/-! ### Lemmas about the write lifecycle -/

theorem createTask_failed_state (st : AppState) (wc : Bool)
    (oracle : LedgerOracle) (logs : List RawLog) (reader : Nat → Option Task)
    (stage : Stage) (reason : String)
    (h : (createTask st wc oracle logs reader).2.2 = .failed stage reason) :
    (createTask st wc oracle logs reader).1 =
      { st with error := "Failed to create task: " ++ reason } := by
  obtain ⟨sim, sub, awa⟩ := oracle
  by_cases hg : trimString st.newTaskDescription = "" ∨ wc = false
  · unfold createTask at h
    rw [if_pos hg] at h
    exact absurd h (by simp)
  · unfold createTask at h ⊢
    rw [if_neg hg] at h ⊢
    rcases sim with r | q
    · injection h with h1 h2
      rw [← h2]
    · rcases sub with r2 | hsh
      · injection h with h1 h2
        rw [← h2]
      · rcases awa with r3 | u
        · injection h with h1 h2
          rw [← h2]
        · exact absurd h (by simp)

theorem updateTask_failed_state (st : AppState) (wc : Bool)
    (oracle : LedgerOracle) (logs : List RawLog) (reader : Nat → Option Task)
    (stage : Stage) (reason : String)
    (h : (updateTask st wc oracle logs reader).2.2 = .failed stage reason) :
    (updateTask st wc oracle logs reader).1 =
      { st with error := "Failed to update task: " ++ reason } := by
  obtain ⟨tasks, events, err, ntd, et⟩ := st
  obtain ⟨sim, sub, awa⟩ := oracle
  cases et with
  | none =>
    unfold updateTask at h
    exact absurd h (by simp)
  | some td =>
    obtain ⟨tid, d⟩ := td
    by_cases hg : trimString d = "" ∨ wc = false
    · simp only [updateTask] at h
      rw [if_pos hg] at h
      exact absurd h (by simp)
    · simp only [updateTask] at h ⊢
      rw [if_neg hg] at h ⊢
      rcases sim with r | q
      · injection h with h1 h2
        rw [← h2]
      · rcases sub with r2 | hsh
        · injection h with h1 h2
          rw [← h2]
        · rcases awa with r3 | u
          · injection h with h1 h2
            rw [← h2]
          · exact absurd h (by simp)

theorem completeTask_failed_state (st : AppState) (wc : Bool)
    (oracle : LedgerOracle) (id : Nat) (logs : List RawLog)
    (reader : Nat → Option Task) (stage : Stage) (reason : String)
    (h : (completeTask st wc oracle id logs reader).2.2 =
      .failed stage reason) :
    (completeTask st wc oracle id logs reader).1 =
      { st with error := "Failed to complete task: " ++ reason } := by
  obtain ⟨sim, sub, awa⟩ := oracle
  by_cases hg : wc = false
  · unfold completeTask at h
    rw [if_pos hg] at h
    exact absurd h (by simp)
  · unfold completeTask at h ⊢
    rw [if_neg hg] at h ⊢
    rcases sim with r | q
    · injection h with h1 h2
      rw [← h2]
    · rcases sub with r2 | hsh
      · injection h with h1 h2
        rw [← h2]
      · rcases awa with r3 | u
        · injection h with h1 h2
          rw [← h2]
        · exact absurd h (by simp)

/-- Oracle whose simulate stage reverts. -/
def oracleSimFail : LedgerOracle :=
  { simulateResult := .error "already completed",
    submitResult := .ok "0xabc", awaitResult := .ok () }

/-- Oracle for a fully successful write. -/
def oracleOk : LedgerOracle :=
  { simulateResult := .ok 1, submitResult := .ok "0xabc",
    awaitResult := .ok () }

/-- App state with a pending (padded) create input and an edit in
progress. -/
def stSample : AppState :=
  { tasks := [{ id := 1, description := "b", completed := false }],
    events := [], error := "", newTaskDescription := "  buy milk  ",
    editingTask := some (1, " milk ") }

/-- App state whose pending inputs are whitespace-only. -/
def wsState : AppState :=
  { tasks := [], events := [], error := "", newTaskDescription := "   ",
    editingTask := some (1, " ") }

/-- C5: for each of the three write intents, if the simulate stage fails
(entry guards passed, so simulate actually runs), the call trace contains
no submit call and the operation ends `Failed` at the simulating stage
with the revert reason. -/
theorem C5_simulate_failure_no_submit (st : AppState) (oracle : LedgerOracle)
    (logs : List RawLog) (reader : Nat → Option Task) (id : Nat)
    (reason : String) (hsim : oracle.simulateResult = .error reason) :
    (trimString st.newTaskDescription ≠ "" →
      (∀ q : Nat, LedgerCall.submitCall q ∉
        (createTask st true oracle logs reader).2.1) ∧
      (createTask st true oracle logs reader).2.2 =
        .failed .simulating reason) ∧
    (∀ tid d, st.editingTask = some (tid, d) → trimString d ≠ "" →
      (∀ q : Nat, LedgerCall.submitCall q ∉
        (updateTask st true oracle logs reader).2.1) ∧
      (updateTask st true oracle logs reader).2.2 =
        .failed .simulating reason) ∧
    ((∀ q : Nat, LedgerCall.submitCall q ∉
        (completeTask st true oracle id logs reader).2.1) ∧
      (completeTask st true oracle id logs reader).2.2 =
        .failed .simulating reason) := by
  refine ⟨fun hdesc => ⟨fun q => ?_, ?_⟩,
    fun tid d hed hdesc => ⟨fun q => ?_, ?_⟩, ⟨fun q => ?_, ?_⟩⟩
  · simp [createTask, hsim, hdesc]
  · simp [createTask, hsim, hdesc]
  · simp [updateTask, hed, hsim, hdesc]
  · simp [updateTask, hed, hsim, hdesc]
  · simp [completeTask, hsim]
  · simp [completeTask, hsim]

/-- Witness for C5: concrete simulate-revert runs of all three writes. -/
theorem C5_witness :
    LedgerCall.submitCall 0 ∉
        (createTask stSample true oracleSimFail [] allReader).2.1 ∧
      (createTask stSample true oracleSimFail [] allReader).2.2 =
        .failed .simulating "already completed" ∧
      LedgerCall.submitCall 0 ∉
        (updateTask stSample true oracleSimFail [] allReader).2.1 ∧
      (updateTask stSample true oracleSimFail [] allReader).2.2 =
        .failed .simulating "already completed" ∧
      LedgerCall.submitCall 0 ∉
        (completeTask stSample true oracleSimFail 1 [] allReader).2.1 ∧
      (completeTask stSample true oracleSimFail 1 [] allReader).2.2 =
        .failed .simulating "already completed" := by
  obtain ⟨h1, h2, h3⟩ := C5_simulate_failure_no_submit stSample oracleSimFail
    [] allReader 1 "already completed" rfl
  obtain ⟨h1a, h1b⟩ := h1 (by decide)
  obtain ⟨h2a, h2b⟩ := h2 1 " milk " rfl (by decide)
  exact ⟨h1a 0, h1b, h2a 0, h2b, h3.1 0, h3.2⟩

/-- C6: a write intent that fails at any stage (simulate, submit or
confirmation) leaves the snapshot untouched: the resulting state differs
from the previous one only in the surfaced error message, for all three
operations. -/
theorem C6_failure_preserves_snapshot (st : AppState) (wc : Bool)
    (oracle : LedgerOracle) (logs : List RawLog) (reader : Nat → Option Task)
    (id : Nat) (stage : Stage) (reason : String) :
    ((createTask st wc oracle logs reader).2.2 = .failed stage reason →
      (createTask st wc oracle logs reader).1 =
        { st with error := "Failed to create task: " ++ reason }) ∧
    ((updateTask st wc oracle logs reader).2.2 = .failed stage reason →
      (updateTask st wc oracle logs reader).1 =
        { st with error := "Failed to update task: " ++ reason }) ∧
    ((completeTask st wc oracle id logs reader).2.2 = .failed stage reason →
      (completeTask st wc oracle id logs reader).1 =
        { st with error := "Failed to complete task: " ++ reason }) :=
  ⟨createTask_failed_state st wc oracle logs reader stage reason,
   updateTask_failed_state st wc oracle logs reader stage reason,
   completeTask_failed_state st wc oracle id logs reader stage reason⟩

/-- Witness for C6: simulate-revert runs of all three writes leave the
previous snapshot, recording only the error. -/
theorem C6_witness :
    (createTask stSample true oracleSimFail [] allReader).1 =
        { stSample with
          error := "Failed to create task: already completed" } ∧
      (updateTask stSample true oracleSimFail [] allReader).1 =
        { stSample with
          error := "Failed to update task: already completed" } ∧
      (completeTask stSample true oracleSimFail 1 [] allReader).1 =
        { stSample with
          error := "Failed to complete task: already completed" } := by
  obtain ⟨h1, h2, h3⟩ := C6_failure_preserves_snapshot stSample true
    oracleSimFail [] allReader 1 .simulating "already completed"
  exact ⟨h1 (by decide), h2 (by decide), h3 (by decide)⟩

/-- C7: the entry guard — a create/update intent whose description is
empty or whitespace-only, and any write intent without a connected wallet
client, is rejected before simulating: no ledger call is made and the
state is unchanged. -/
theorem C7_entry_guard (st : AppState) (wc : Bool) (oracle : LedgerOracle)
    (logs : List RawLog) (reader : Nat → Option Task) (id : Nat) :
    (st.newTaskDescription.data.all isWs = true →
      createTask st wc oracle logs reader = (st, [], .rejected)) ∧
    (∀ tid d, st.editingTask = some (tid, d) → d.data.all isWs = true →
      updateTask st wc oracle logs reader = (st, [], .rejected)) ∧
    (wc = false →
      createTask st wc oracle logs reader = (st, [], .rejected) ∧
      updateTask st wc oracle logs reader = (st, [], .rejected) ∧
      completeTask st wc oracle id logs reader = (st, [], .rejected)) := by
  refine ⟨fun hws => ?_, fun tid d hed hws => ?_, fun hwc => ⟨?_, ?_, ?_⟩⟩
  · have ht : trimString st.newTaskDescription = "" := trimString_eq_empty _ hws
    simp [createTask, ht]
  · have ht : trimString d = "" := trimString_eq_empty _ hws
    simp [updateTask, hed, ht]
  · simp [createTask, hwc]
  · cases hed : st.editingTask with
    | none => simp [updateTask, hed]
    | some td =>
      obtain ⟨tid, d⟩ := td
      simp [updateTask, hed, hwc]
  · simp [completeTask, hwc]

/-- Witness for C7: whitespace-only inputs and a missing signer are
rejected with no ledger call. -/
theorem C7_witness :
    createTask wsState true oracleOk [] allReader = (wsState, [], .rejected) ∧
      updateTask wsState true oracleOk [] allReader =
        (wsState, [], .rejected) ∧
      completeTask wsState false oracleOk 1 [] allReader =
        (wsState, [], .rejected) :=
  ⟨(C7_entry_guard wsState true oracleOk [] allReader 1).1 (by decide),
   (C7_entry_guard wsState true oracleOk [] allReader 1).2.1 1 " " rfl
     (by decide),
   ((C7_entry_guard wsState false oracleOk [] allReader 1).2.2 rfl).2.2⟩

/-- C10: for every accepted create or update intent, the description
argument of the simulate call is the trimmed user input, and the trimmed
input has neither leading nor trailing whitespace. -/
theorem C10_trimmed_argument (st : AppState) (oracle : LedgerOracle)
    (logs : List RawLog) (reader : Nat → Option Task) :
    (trimString st.newTaskDescription ≠ "" →
      (∃ rest, (createTask st true oracle logs reader).2.1 =
        LedgerCall.simulateCall "createTask" none
          (some (trimString st.newTaskDescription)) :: rest) ∧
      noOuterWs (trimString st.newTaskDescription) = true) ∧
    (∀ tid d, st.editingTask = some (tid, d) → trimString d ≠ "" →
      (∃ rest, (updateTask st true oracle logs reader).2.1 =
        LedgerCall.simulateCall "updateTask" (some tid)
          (some (trimString d)) :: rest) ∧
      noOuterWs (trimString d) = true) := by
  obtain ⟨sim, sub, awa⟩ := oracle
  refine ⟨fun hdesc => ⟨?_, noOuterWs_trimString _⟩,
    fun tid d hed hdesc => ⟨?_, noOuterWs_trimString _⟩⟩
  · rcases sim with r | q
    · exact ⟨[], by simp [createTask, hdesc]⟩
    · rcases sub with r2 | hsh
      · exact ⟨[.submitCall q], by simp [createTask, hdesc]⟩
      · rcases awa with r3 | u
        · exact ⟨[.submitCall q, .awaitConfirmationCall hsh],
            by simp [createTask, hdesc]⟩
        · exact ⟨[.submitCall q, .awaitConfirmationCall hsh],
            by simp [createTask, hdesc]⟩
  · rcases sim with r | q
    · exact ⟨[], by simp [updateTask, hed, hdesc]⟩
    · rcases sub with r2 | hsh
      · exact ⟨[.submitCall q], by simp [updateTask, hed, hdesc]⟩
      · rcases awa with r3 | u
        · exact ⟨[.submitCall q, .awaitConfirmationCall hsh],
            by simp [updateTask, hed, hdesc]⟩
        · exact ⟨[.submitCall q, .awaitConfirmationCall hsh],
            by simp [updateTask, hed, hdesc]⟩

/-- Witness for C10: the simulate argument for a padded concrete input is
its trimmed form. -/
theorem C10_witness :
    (∃ rest, (createTask stSample true oracleOk [] allReader).2.1 =
        LedgerCall.simulateCall "createTask" none
          (some (trimString stSample.newTaskDescription)) :: rest) ∧
      noOuterWs (trimString stSample.newTaskDescription) = true ∧
      trimString stSample.newTaskDescription = "buy milk" := by
  obtain ⟨h1, h2⟩ := C10_trimmed_argument stSample oracleOk [] allReader
  obtain ⟨hr, hw⟩ := h1 (by decide)
  exact ⟨hr, hw, by decide⟩

end Todo
